import Mathlib

/-!
# Trace viewer replay engine: shallow embedding

This development embeds the trace-viewer core (event-log loading, the
session index, the context/action tree build, resource matching and the
snapshot-replay route handler) as executable Lean definitions and proves
properties of them.

External host functionality (file system, JSON parsing, the WHATWG URL
class, the live browser) is modelled at its interface boundary:
* a trace line is represented by its parse outcome (`Option TraceEvent`),
  since JSON parsing is host functionality that either yields an event
  object or throws;
* URL parsing is modelled by `urlParseable` (a URL parses when a scheme
  separator `://` follows a nonempty scheme) and serialization after
  clearing the hash is modelled as dropping the fragment;
* the live page/route objects are represented by the data the handler
  reads from them (request URL, requesting frame URL) and by the decision
  the handler takes (`RouteDecision`).
-/

/-- A recorded network response: `NetworkResourceTraceEvent`. -/
structure NetworkResourceTraceEvent where
  contextId : String
  frameId : String
  url : String
  contentType : String
  responseHeaders : List (String × String)
  sha1 : String
deriving DecidableEq, Repr

/-- A `context-created` event.  Replay-host launch options (`isMobile`,
`viewportSize`, `deviceScaleFactor`) are forwarded verbatim to the external
rendering host and are not modelled. -/
structure ContextCreatedTraceEvent where
  contextId : String
  browserName : String
deriving DecidableEq, Repr

/-- An `action` event.  Display-only fields (`label`, `target`, `value`,
`startTime`, `endTime`, `error`, `stack`, `logs`) feed the UI tree only and
are not modelled; `snapshotSha1` stands for `snapshot?.sha1`. -/
structure ActionTraceEvent where
  contextId : String
  pageId : Option String
  action : String
  snapshotSha1 : Option String
deriving DecidableEq, Repr

/-- The tagged union `TraceEvent`, discriminated by the `type` field. -/
inductive TraceEvent where
  | contextCreated (e : ContextCreatedTraceEvent)
  | contextDestroyed (contextId : String)
  | pageCreated (contextId pageId : String)
  | pageDestroyed (contextId pageId : String)
  | resource (e : NetworkResourceTraceEvent)
  | action (e : ActionTraceEvent)
deriving DecidableEq, Repr

/-- One entry of `FrameSnapshot.resourceOverrides`. -/
structure ResourceOverride where
  url : String
  sha1 : String
deriving DecidableEq, Repr

/-- A captured frame: `FrameSnapshot`. -/
structure FrameSnapshot where
  frameId : String
  url : String
  html : String
  resourceOverrides : List ResourceOverride
deriving DecidableEq, Repr

/-- A captured page: `PageSnapshot`; the first frame is the root frame. -/
structure PageSnapshot where
  frames : List FrameSnapshot
deriving DecidableEq, Repr

/-- Lookup in an insertion-ordered association list (a JS `Map.get`). -/
def assocGet {α : Type} (m : List (String × α)) (k : String) : Option α :=
  (m.find? (fun p => p.1 == k)).map (fun p => p.2)

/-- `Map.set` semantics: overwrite the existing entry in place, else append. -/
def assocSet {α : Type} (m : List (String × α)) (k : String) (v : α) :
    List (String × α) :=
  match m with
  | [] => [(k, v)]
  | (k0, v0) :: rest =>
    if k0 == k then (k0, v) :: rest else (k0, v0) :: assocSet rest k v

/-- Append `v` to the list stored at `k`, creating a one-element list when the
key is absent (the `get`-or-create-then-`push` idiom of `load`). -/
def assocAppend {α : Type} (m : List (String × List α)) (k : String) (v : α) :
    List (String × List α) :=
  match m with
  | [] => [(k, [v])]
  | (k0, vs) :: rest =>
    if k0 == k then (k0, vs ++ [v]) :: rest else (k0, vs) :: assocAppend rest k v

/-- `Set.add` semantics on an insertion-ordered list. -/
def insertName (names : List String) (n : String) : List String :=
  if n ∈ names then names else names ++ [n]

/-- Does a `://` scheme separator occur in the character list? -/
def containsSchemeSep : List Char → Bool
  | ':' :: '/' :: '/' :: _ => true
  | _ :: rest => containsSchemeSep rest
  | [] => false

/-- Modelled from the spec: the WHATWG `URL` constructor is host
functionality; we model parse success as a `://` separator following a
nonempty scheme.  The spec's normalization step uses it only to decide
between stripping the fragment and returning the raw string. -/
def urlParseable (url : String) : Bool :=
  match url.toList with
  | [] => false
  | ':' :: _ => false
  | _ :: rest => containsSchemeSep rest

/-- `removeHash`: parse the URL, clear its hash and re-serialize; on parse
failure return the raw string unmodified.  Serialization is modelled as
dropping the first `#` and everything after it. -/
def removeHash (url : String) : String :=
  if urlParseable url then String.mk (url.toList.takeWhile (fun c => c ≠ '#'))
  else url

/-- The candidate scan of `_renderSnapshot` (its `for` loop over
`_resourceEventsByUrl.get(removeHash(url))`): `resource` is the running
best candidate, `contextId` the replay target's context, `frameId` the
requesting frame's recorded id. -/
def matchLoop (contextId frameId : String) :
    Option NetworkResourceTraceEvent → List NetworkResourceTraceEvent →
    Option NetworkResourceTraceEvent
  | resource, [] => resource
  | resource, e :: rest =>
    if e.contextId ≠ contextId then matchLoop contextId frameId resource rest
    else if resource.isSome ∧ e.frameId ≠ frameId then
      matchLoop contextId frameId resource rest
    else if e.frameId = frameId then some e
    else matchLoop contextId frameId (some e) rest

/-- The resource matcher: scan the stored candidate list for the normalized
URL, keeping only same-context candidates, with frame-affinity short-circuit. -/
def matchResource (candidates : List NetworkResourceTraceEvent)
    (contextId frameId : String) : Option NetworkResourceTraceEvent :=
  matchLoop contextId frameId none candidates

/-- Spec-side reading of the matcher's tie-break, written from the spec's
words for comparison: the first same-context candidate whose `frameId`
matches, else the earliest-stored same-context candidate. -/
def specFirstFrameMatch (candidates : List NetworkResourceTraceEvent)
    (contextId frameId : String) : Option NetworkResourceTraceEvent :=
  match (candidates.filter (fun e => e.contextId == contextId)).find?
      (fun e => e.frameId == frameId) with
  | some e => some e
  | none => (candidates.filter (fun e => e.contextId == contextId)).head?

theorem matchLoop_some (contextId frameId : String)
    (r : NetworkResourceTraceEvent) :
    ∀ cs, matchLoop contextId frameId (some r) cs =
      match (cs.filter (fun e => e.contextId == contextId)).find?
          (fun e => e.frameId == frameId) with
      | some e => some e
      | none => some r := by
  intro cs
  induction cs with
  | nil => simp [matchLoop]
  | cons e rest ih =>
    by_cases hc : e.contextId = contextId
    · by_cases hf : e.frameId = frameId
      · simp [matchLoop, hc, hf]
      · simp [matchLoop, hc, hf, ih]
    · simp [matchLoop, hc, ih]

theorem matchLoop_none (contextId frameId : String) :
    ∀ cs, matchLoop contextId frameId none cs =
      specFirstFrameMatch cs contextId frameId := by
  intro cs
  induction cs with
  | nil => simp [matchLoop, specFirstFrameMatch]
  | cons e rest ih =>
    by_cases hc : e.contextId = contextId
    · by_cases hf : e.frameId = frameId
      · simp [matchLoop, specFirstFrameMatch, hc, hf]
      · rw [matchLoop, if_neg (by simp [hc]), if_neg (by simp), if_neg hf,
          matchLoop_some contextId frameId e rest]
        simp [specFirstFrameMatch, hc, hf]
    · rw [matchLoop, if_pos hc, ih]
      simp [specFirstFrameMatch, hc]

/-- C1: the matcher returns the first same-context candidate whose `frameId`
equals the preferred frame id when one exists (the scan breaks there), and
otherwise the earliest-stored same-context candidate. -/
theorem matcher_frame_affinity_tiebreak
    (candidates : List NetworkResourceTraceEvent) (contextId frameId : String) :
    matchResource candidates contextId frameId =
      specFirstFrameMatch candidates contextId frameId :=
  matchLoop_none contextId frameId candidates

/-- C2: the matcher never returns a candidate from another context, and with
no same-context candidate it reports `none` (the request is then unmatched). -/
theorem matcher_context_isolation :
    (∀ (cs : List NetworkResourceTraceEvent) (ctx pf : String)
        (r : NetworkResourceTraceEvent),
        matchResource cs ctx pf = some r → r.contextId = ctx) ∧
    (∀ (cs : List NetworkResourceTraceEvent) (ctx pf : String),
        (∀ e ∈ cs, e.contextId ≠ ctx) → matchResource cs ctx pf = none) := by
  constructor
  · intro cs ctx pf r h
    rw [matchResource, matchLoop_none, specFirstFrameMatch] at h
    have hmem : r ∈ cs.filter (fun e => e.contextId == ctx) := by
      cases hf : (cs.filter (fun e => e.contextId == ctx)).find?
          (fun e => e.frameId == pf) with
      | some e =>
        rw [hf] at h
        cases h
        exact List.mem_of_find?_eq_some hf
      | none =>
        rw [hf] at h
        cases hl : cs.filter (fun e => e.contextId == ctx) with
        | nil => rw [hl] at h; simp at h
        | cons x t =>
          rw [hl] at h
          simp only [List.head?] at h
          cases h
          exact List.mem_cons_self r t
    have := (List.mem_filter.mp hmem).2
    simpa using this
  · intro cs ctx pf h
    rw [matchResource, matchLoop_none, specFirstFrameMatch]
    have hnil : cs.filter (fun e => e.contextId == ctx) = [] := by
      rw [List.filter_eq_nil_iff]
      intro a ha
      simpa using h a ha
    rw [hnil]
    rfl

/-- Witness for C2 at concrete inputs: a lone candidate owned by context
`"B"` is never returned for context `"A"`, and a returned candidate's
context matches the target. -/
theorem matcher_context_isolation_witness :
    (⟨"A", "f", "u", "t", [], "s"⟩ : NetworkResourceTraceEvent).contextId = "A"
      ∧ matchResource [⟨"B", "f", "u", "t", [], "s"⟩] "A" "f" = none :=
  ⟨matcher_context_isolation.1 [⟨"A", "f", "u", "t", [], "s"⟩] "A" "f"
      ⟨"A", "f", "u", "t", [], "s"⟩ (by decide),
    matcher_context_isolation.2 [⟨"B", "f", "u", "t", [], "s"⟩] "A" "f"
      (by decide)⟩

/-- The mutable state of a `TraceViewer` instance, as insertion-ordered
lists: loaded traces, the browser-name set, the per-URL resource index and
the context table. -/
structure TraceViewerState where
  traces : List (String × List TraceEvent)
  browserNames : List String
  resourceEventsByUrl : List (String × List NetworkResourceTraceEvent)
  contextEventById : List (String × ContextCreatedTraceEvent)
deriving DecidableEq, Repr

/-- A fresh `TraceViewer`. -/
def emptyViewer : TraceViewerState := ⟨[], [], [], []⟩

/-- One iteration of `load`'s `for` loop: `context-created` events update the
browser-name set and the context table; `resource` events are appended to the
index under the event's raw `url`. -/
def applyEvent (st : TraceViewerState) (e : TraceEvent) : TraceViewerState :=
  match e with
  | .contextCreated c =>
    { st with
      browserNames := insertName st.browserNames c.browserName
      contextEventById := assocSet st.contextEventById c.contextId c }
  | .resource r =>
    { st with resourceEventsByUrl := assocAppend st.resourceEventsByUrl r.url r }
  | _ => st

/-- The `.map(line => JSON.parse(line))` step over the trimmed nonempty
lines: the first malformed line throws, so the whole event list exists only
when every line parses. -/
def sequenceLines : List (Option TraceEvent) → Option (List TraceEvent)
  | [] => some []
  | none :: _ => none
  | some e :: rest => (sequenceLines rest).map (fun es => e :: es)

/-- `load(traceFile)`: parse every line first; only then walk the events
updating the indices and push the trace entry.  A parse failure surfaces as
an error before any state is touched. -/
def load (st : TraceViewerState) (traceFile : String)
    (parsedLines : List (Option TraceEvent)) : Except String TraceViewerState :=
  match sequenceLines parsedLines with
  | none => .error "ParseError"
  | some events =>
    let st2 := events.foldl applyEvent st
    .ok { st2 with traces := st2.traces ++ [(traceFile, events)] }

/-- The caller's view of `this` after a `load` call: on a thrown parse error
the viewer keeps its previous state. -/
def loadOrKeep (st : TraceViewerState) (traceFile : String)
    (parsedLines : List (Option TraceEvent)) : TraceViewerState :=
  match load st traceFile parsedLines with
  | .ok st2 => st2
  | .error _ => st

/-- Did a `load` call succeed? -/
def loadSucceeds (r : Except String TraceViewerState) : Bool :=
  match r with
  | .ok _ => true
  | .error _ => false

theorem sequenceLines_of_none :
    ∀ (lines : List (Option TraceEvent)), none ∈ lines →
      sequenceLines lines = none := by
  intro lines h
  induction lines with
  | nil => cases h
  | cons l rest ih =>
    cases l with
    | none => rfl
    | some e =>
      have : none ∈ rest := by simpa using h
      simp [sequenceLines, ih this]

theorem sequenceLines_of_all_some :
    ∀ (lines : List (Option TraceEvent)), (∀ l ∈ lines, l.isSome) →
      sequenceLines lines = some (lines.filterMap id) := by
  intro lines h
  induction lines with
  | nil => rfl
  | cons l rest ih =>
    cases l with
    | none => exact absurd (h none (List.mem_cons_self _ _)) (by simp)
    | some e =>
      have hrest : ∀ l ∈ rest, l.isSome := fun l hl =>
        h l (List.mem_cons_of_mem _ hl)
      simp [sequenceLines, ih hrest, List.filterMap_cons]

/-- C8: a malformed line fails the whole `load` call with a parse error and
the failure is atomic — the caller's viewer state (traces, browser names,
context table and resource index) is exactly what it was before the call,
because the event list is fully parsed before any index is updated. -/
theorem load_parse_error_atomic (st : TraceViewerState) (traceFile : String)
    (parsedLines : List (Option TraceEvent)) (h : none ∈ parsedLines) :
    load st traceFile parsedLines = .error "ParseError" ∧
      loadOrKeep st traceFile parsedLines = st := by
  have hseq := sequenceLines_of_none parsedLines h
  constructor
  · rw [load, hseq]
  · rw [loadOrKeep, load, hseq]

/-- Witness for C8: one good line followed by a malformed one leaves a
fresh viewer untouched. -/
theorem load_parse_error_atomic_witness :
    load emptyViewer "trace1"
        [some (.contextCreated ⟨"c1", "chromium"⟩), none] = .error "ParseError" ∧
      loadOrKeep emptyViewer "trace1"
        [some (.contextCreated ⟨"c1", "chromium"⟩), none] = emptyViewer :=
  load_parse_error_atomic emptyViewer "trace1"
    [some (.contextCreated ⟨"c1", "chromium"⟩), none] (by decide)

theorem assocGet_assocAppend {α : Type} (m : List (String × List α))
    (k : String) (v : α) :
    assocGet (assocAppend m k v) k =
      some (((assocGet m k).getD []) ++ [v]) := by
  induction m with
  | nil => simp [assocAppend, assocGet]
  | cons p rest ih =>
    obtain ⟨k0, vs⟩ := p
    by_cases hk : k0 = k
    · simp [assocAppend, assocGet, hk]
    · have hbeq : (k0 == k) = false := by simp [hk]
      simp only [assocAppend, assocGet, List.find?, hbeq, cond_false] at ih ⊢
      exact ih

/-- C3 (amended): the session index stores a loaded `Resource` event under
its raw recorded `url` — no fragment stripping happens at store time; the
stripping happens at lookup time instead, where the matcher consults
`removeHash` of the requested URL, so fragment-bearing request URLs are
looked up under the same fragment-free key as the fragment-free URL. -/
theorem index_raw_storage_lookup_normalization :
    (∀ (st : TraceViewerState) (r : NetworkResourceTraceEvent),
        assocGet (applyEvent st (.resource r)).resourceEventsByUrl r.url =
          some (((assocGet st.resourceEventsByUrl r.url).getD []) ++ [r])) ∧
      removeHash "https://x/y#frag1" = "https://x/y" ∧
      removeHash "https://x/y#frag2" = "https://x/y" ∧
      removeHash "https://x/y" = "https://x/y" := by
  refine ⟨fun st r => ?_, by decide, by decide, by decide⟩
  simp [applyEvent, assocGet_assocAppend]

/-- Counterexample to C3 as stated: a `Resource` event whose recorded URL
carries a fragment is stored under that fragment-bearing URL, not under its
hash-stripped form — the index has no entry at the stripped key. -/
theorem index_raw_storage_counterexample :
    removeHash "https://x/y#frag1" = "https://x/y" ∧
      assocGet (applyEvent emptyViewer
          (.resource ⟨"c1", "f1", "https://x/y#frag1", "text/css", [], "S1"⟩)
        ).resourceEventsByUrl "https://x/y" = none ∧
      assocGet (applyEvent emptyViewer
          (.resource ⟨"c1", "f1", "https://x/y#frag1", "text/css", [], "S1"⟩)
        ).resourceEventsByUrl "https://x/y#frag1" =
        some [⟨"c1", "f1", "https://x/y#frag1", "text/css", [], "S1"⟩] := by
  decide

/-- One entry of `show`'s `contextData` object: keyed by the context id, with
a human-readable label and the context's actions in encounter order. -/
structure ContextEntry where
  contextId : String
  label : String
  actions : List ActionTraceEvent
deriving DecidableEq, Repr

/-- Append an action to the entry with the given context id. -/
def addActionToEntry (data : List ContextEntry) (cid : String)
    (a : ActionTraceEvent) : List ContextEntry :=
  data.map (fun entry =>
    if entry.contextId = cid then { entry with actions := entry.actions ++ [a] }
    else entry)

/-- Is there already an entry for the context id? -/
def hasEntry (data : List ContextEntry) (cid : String) : Bool :=
  data.any (fun entry => entry.contextId == cid)

/-- One iteration of `show`'s per-trace event loop.  The accumulator carries
the per-trace context counter and the cross-trace `contextData`.  The lookup
`this._contextEventById.get(event.contextId)!` dereferences the context
event unconditionally, so a missing context makes the whole build throw:
that is the `none` outcome. -/
def showStep (ctxById : List (String × ContextCreatedTraceEvent))
    (browserName traceFile : String) (acc : Nat × List ContextEntry)
    (e : TraceEvent) : Option (Nat × List ContextEntry) :=
  match e with
  | .action a =>
    match assocGet ctxById a.contextId with
    | none => none
    | some ctxEvent =>
      if ctxEvent.browserName = browserName then
        if hasEntry acc.2 ctxEvent.contextId then
          some (acc.1, addActionToEntry acc.2 ctxEvent.contextId a)
        else
          some (acc.1 + 1, acc.2 ++
            [⟨ctxEvent.contextId,
              traceFile ++ " :: context" ++ toString (acc.1 + 1), [a]⟩])
      else some acc
  | _ => some acc

/-- `show`'s outer loop over loaded traces: the context counter restarts at
zero for each trace, the `contextData` object is shared across traces. -/
def buildTraces (ctxById : List (String × ContextCreatedTraceEvent))
    (browserName : String) (data : List ContextEntry) :
    List (String × List TraceEvent) → Option (List ContextEntry)
  | [] => some data
  | (traceFile, events) :: rest => do
    let acc ← events.foldlM (showStep ctxById browserName traceFile) (0, data)
    buildTraces ctxById browserName acc.2 rest

/-- The context/action tree build of `show` for one requested browser. -/
def buildContextData (ctxById : List (String × ContextCreatedTraceEvent))
    (browserName : String) (traces : List (String × List TraceEvent)) :
    Option (List ContextEntry) :=
  buildTraces ctxById browserName [] traces

/-- C7 (amended): `load` tolerates orphaned events — it performs no
`contextId` validation at all, so any fully parsed line list loads
successfully; but `show`'s tree build does not skip an orphaned `Action`
event: its unconditional context dereference fails the whole build. -/
theorem orphaned_events_load_ok_show_throws :
    (∀ (st : TraceViewerState) (traceFile : String)
        (parsedLines : List (Option TraceEvent)),
        (∀ l ∈ parsedLines, l.isSome) →
          loadSucceeds (load st traceFile parsedLines) = true) ∧
      (∀ (a : ActionTraceEvent) (browserName traceFile : String),
        buildContextData [] browserName [(traceFile, [.action a])] = none) := by
  constructor
  · intro st traceFile parsedLines h
    rw [load, sequenceLines_of_all_some parsedLines h]
    rfl
  · intro a browserName traceFile
    simp [buildContextData, buildTraces, showStep, assocGet]

/-- Witness for C7: a trace consisting of one `Resource` event whose
`contextId` references no `context-created` event still loads, and the tree
build over one orphaned action fails. -/
theorem orphaned_events_load_ok_show_throws_witness :
    loadSucceeds (load emptyViewer "trace1"
        [some (.resource ⟨"c9", "f1", "https://a/app.js", "text/javascript",
          [], "S1"⟩)]) = true ∧
      buildContextData [] "chromium"
        [("trace1", [.action ⟨"c9", none, "click", none⟩])] = none :=
  ⟨orphaned_events_load_ok_show_throws.1 emptyViewer "trace1"
      [some (.resource ⟨"c9", "f1", "https://a/app.js", "text/javascript",
        [], "S1"⟩)] (by decide),
    orphaned_events_load_ok_show_throws.2 ⟨"c9", none, "click", none⟩
      "chromium" "trace1"⟩

/-- Counterexample to C7 as stated: the claim says `show` skips an orphaned
`Action` event; on the code the build throws (modelled as `none`) instead of
returning the empty context table. -/
theorem orphaned_show_skip_counterexample :
    buildContextData [] "chromium"
        [("trace1", [.action ⟨"c9", none, "click", none⟩])] = none ∧
      buildContextData [] "chromium"
        [("trace1", [.action ⟨"c9", none, "click", none⟩])] ≠ some [] := by
  decide

/-- `frameBySrc.get`: the map is built by inserting every frame of
`snapshot.frames` in order under its `url`, so on duplicate URLs the last
frame wins. -/
def frameBySrcGet (frames : List FrameSnapshot) (url : String) :
    Option FrameSnapshot :=
  frames.foldl (fun acc f => if f.url = url then some f else acc) none

/-- The decision the `page.route` interceptor takes for one request, before
any blob-store read.  `fulfillHtml` serves verbatim frame HTML with the
given content type; `fulfillResource` serves the matched `Resource` event
(its `contentType` and `responseHeaders`, plus an injected
`Access-Control-Allow-Origin: *`) with the body read from `bodySha1`;
`unmatched` logs the URL (deduplicated) and aborts the route. -/
inductive RouteDecision where
  | fulfillHtml (contentType : String) (body : String)
  | fulfillResource (resource : NetworkResourceTraceEvent) (bodySha1 : String)
  | unmatched
deriving DecidableEq, Repr

/-- The route interceptor installed by `_renderSnapshot`, as a pure decision
function over the request URL and the requesting frame's URL. -/
def handleRoute (resourceEventsByUrl :
      List (String × List NetworkResourceTraceEvent))
    (frames : List FrameSnapshot) (contextId url frameSrc : String) :
    RouteDecision :=
  match frameBySrcGet frames url with
  | some frameSnapshot => .fulfillHtml "text/html" frameSnapshot.html
  | none =>
    match frameBySrcGet frames frameSrc with
    | none => .unmatched
    | some frameSnapshot =>
      match matchResource
          ((assocGet resourceEventsByUrl (removeHash url)).getD [])
          contextId frameSnapshot.frameId with
      | none => .unmatched
      | some resource =>
        let overrideSha1 := (frameSnapshot.resourceOverrides.find?
          (fun o => o.url == url)).map (fun o => o.sha1)
        .fulfillResource resource (overrideSha1.getD resource.sha1)

theorem frameBySrcGet_eq_getLast (url : String) :
    ∀ (frames : List FrameSnapshot) (acc : Option FrameSnapshot),
      frames.foldl (fun a f => if f.url = url then some f else a) acc =
        match (frames.filter (fun f => f.url == url)).getLast? with
        | some f => some f
        | none => acc := by
  intro frames
  induction frames with
  | nil => intro acc; rfl
  | cons f rest ih =>
    intro acc
    by_cases hu : f.url = url
    · simp only [List.foldl, if_pos hu, List.filter_cons,
        show (f.url == url) = true by simp [hu], ih (some f)]
      cases hl : (rest.filter (fun g => g.url == url)).getLast? with
      | some g => simp [List.getLast?_cons, hl]
      | none =>
        have : rest.filter (fun g => g.url == url) = [] := by
          cases hr : rest.filter (fun g => g.url == url) with
          | nil => rfl
          | cons x t => rw [hr] at hl; simp [List.getLast?] at hl
        simp [this]
    · simp only [List.foldl, if_neg hu, List.filter_cons,
        show (f.url == url) = false by simp [hu], ih acc]
      simp

/-- C10: a request whose URL equals the recorded URL of any `FrameSnapshot`
is fulfilled with stored frame HTML as `text/html`, bypassing both the
resource index (quantified over every index) and `resourceOverrides`; with
several frames sharing the URL, the last one in `snapshot.frames` order
supplies the HTML. -/
theorem frame_url_serves_last_frame_html
    (resourceEventsByUrl : List (String × List NetworkResourceTraceEvent))
    (frames : List FrameSnapshot) (contextId url frameSrc : String)
    (f : FrameSnapshot)
    (h : (frames.filter (fun g => g.url == url)).getLast? = some f) :
    handleRoute resourceEventsByUrl frames contextId url frameSrc =
      .fulfillHtml "text/html" f.html := by
  rw [handleRoute, frameBySrcGet, frameBySrcGet_eq_getLast, h]

/-- Witness for C10: with two frames recorded under the same URL, the second
frame's HTML is served even though a same-URL `Resource` event is indexed. -/
theorem frame_url_serves_last_frame_html_witness :
    (([⟨"f0", "https://a/", "A", []⟩, ⟨"f1", "https://a/", "B", []⟩]
        : List FrameSnapshot).filter
          (fun g => g.url == "https://a/")).getLast? =
      some ⟨"f1", "https://a/", "B", []⟩ ∧
    handleRoute
        [("https://a/", [⟨"c1", "f0", "https://a/", "text/html", [], "S0"⟩])]
        [⟨"f0", "https://a/", "A", []⟩, ⟨"f1", "https://a/", "B", []⟩]
        "c1" "https://a/" "https://a/" =
      .fulfillHtml "text/html" "B" :=
  ⟨by decide,
    frame_url_serves_last_frame_html
      [("https://a/", [⟨"c1", "f0", "https://a/", "text/html", [], "S0"⟩])]
      [⟨"f0", "https://a/", "A", []⟩, ⟨"f1", "https://a/", "B", []⟩]
      "c1" "https://a/" "https://a/" ⟨"f1", "https://a/", "B", []⟩ (by decide)⟩

/-- C5 (amended): a request whose URL equals the root frame's recorded URL
is fulfilled with stored frame HTML as `text/html` and never reaches the
Resource Matcher (the conclusion holds for every resource index); the HTML
served is the root frame's own whenever no later frame in `snapshot.frames`
shares the root's URL — on duplicates the last same-URL frame's HTML wins. -/
theorem root_url_short_circuit
    (resourceEventsByUrl : List (String × List NetworkResourceTraceEvent))
    (root : FrameSnapshot) (rest : List FrameSnapshot)
    (contextId url frameSrc : String)
    (hurl : url = root.url) (hunique : ∀ f ∈ rest, f.url ≠ url) :
    handleRoute resourceEventsByUrl (root :: rest) contextId url frameSrc =
      .fulfillHtml "text/html" root.html := by
  have hrest : rest.filter (fun g => g.url == url) = [] := by
    rw [List.filter_eq_nil_iff]
    intro f hf
    simpa using hunique f hf
  have hfil : (root :: rest).filter (fun g => g.url == url) = [root] := by
    rw [List.filter_cons, if_pos (by simp [hurl]), hrest]
  rw [handleRoute, frameBySrcGet, frameBySrcGet_eq_getLast, hfil]
  rfl

/-- Witness for C5 (amended): a one-frame snapshot's root URL request serves
the root HTML even with a same-URL `Resource` event in the index. -/
theorem root_url_short_circuit_witness :
    ("https://a/" = (⟨"f0", "https://a/", "ROOT", []⟩ : FrameSnapshot).url) ∧
    handleRoute
        [("https://a/", [⟨"c1", "f0", "https://a/", "text/html", [], "S0"⟩])]
        [⟨"f0", "https://a/", "ROOT", []⟩] "c1" "https://a/" "https://a/" =
      .fulfillHtml "text/html" "ROOT" :=
  ⟨rfl,
    root_url_short_circuit
      [("https://a/", [⟨"c1", "f0", "https://a/", "text/html", [], "S0"⟩])]
      ⟨"f0", "https://a/", "ROOT", []⟩ [] "c1" "https://a/" "https://a/"
      rfl (by simp)⟩

/-- Counterexample to C5 as stated: when a later frame shares the root
frame's URL, the root-URL request is fulfilled with the LAST such frame's
HTML (`"B"`), not the root frame's own stored HTML (`"A"`). -/
theorem root_url_root_html_counterexample :
    handleRoute [] [⟨"f0", "u", "A", []⟩, ⟨"f1", "u", "B", []⟩]
        "c" "u" "x" = .fulfillHtml "text/html" "B" ∧
      handleRoute [] [⟨"f0", "u", "A", []⟩, ⟨"f1", "u", "B", []⟩]
        "c" "u" "x" ≠ .fulfillHtml "text/html" "A" := by
  decide

/-- C4 (amended): a `resourceOverrides` entry whose URL exactly equals the
requested URL supplies the content hash for the served body, overriding the
matched candidate's own hash — but only once the Resource Matcher has found
a candidate; the override does not bypass the matcher, and the served
`contentType`/headers still come from the matched `Resource` event. -/
theorem resource_override_body_hash
    (resourceEventsByUrl : List (String × List NetworkResourceTraceEvent))
    (frames : List FrameSnapshot) (contextId url frameSrc : String)
    (frameSnapshot : FrameSnapshot) (r : NetworkResourceTraceEvent)
    (o : ResourceOverride)
    (hnotFrame : frameBySrcGet frames url = none)
    (hframe : frameBySrcGet frames frameSrc = some frameSnapshot)
    (hmatch : matchResource
        ((assocGet resourceEventsByUrl (removeHash url)).getD [])
        contextId frameSnapshot.frameId = some r)
    (hov : frameSnapshot.resourceOverrides.find? (fun ov => ov.url == url) =
      some o) :
    handleRoute resourceEventsByUrl frames contextId url frameSrc =
      .fulfillResource r o.sha1 := by
  simp [handleRoute, hnotFrame, hframe, hmatch, hov]

/-- Witness for C4 (amended): a stylesheet matched from the index is served
with the frame's override hash `"SOVR"` in place of its recorded `"SR"`. -/
theorem resource_override_body_hash_witness :
    matchResource [⟨"c1", "f9", "https://a/s.css", "text/css", [], "SR"⟩]
        "c1" "f1" =
      some ⟨"c1", "f9", "https://a/s.css", "text/css", [], "SR"⟩ ∧
    handleRoute
        [("https://a/s.css",
          [⟨"c1", "f9", "https://a/s.css", "text/css", [], "SR"⟩])]
        [⟨"f0", "https://a/", "R", []⟩,
          ⟨"f1", "https://a/frame", "F", [⟨"https://a/s.css", "SOVR"⟩]⟩]
        "c1" "https://a/s.css" "https://a/frame" =
      .fulfillResource ⟨"c1", "f9", "https://a/s.css", "text/css", [], "SR"⟩
        "SOVR" :=
  ⟨by decide,
    resource_override_body_hash
      [("https://a/s.css",
        [⟨"c1", "f9", "https://a/s.css", "text/css", [], "SR"⟩])]
      [⟨"f0", "https://a/", "R", []⟩,
        ⟨"f1", "https://a/frame", "F", [⟨"https://a/s.css", "SOVR"⟩]⟩]
      "c1" "https://a/s.css" "https://a/frame"
      ⟨"f1", "https://a/frame", "F", [⟨"https://a/s.css", "SOVR"⟩]⟩
      ⟨"c1", "f9", "https://a/s.css", "text/css", [], "SR"⟩
      ⟨"https://a/s.css", "SOVR"⟩
      (by decide) (by decide) (by decide) (by decide)⟩

/-- Counterexample to C4 as stated: with an empty resource index, a request
covered by a frame's `resourceOverrides` entry is still unmatched — the
override is only consulted after the matcher finds a candidate, so it does
not win "without requiring the Matcher to find any candidate". -/
theorem override_without_candidate_counterexample :
    (([⟨"https://a/s.css", "SOVR"⟩] : List ResourceOverride).find?
        (fun o => o.url == "https://a/s.css") =
      some ⟨"https://a/s.css", "SOVR"⟩) ∧
    handleRoute []
        [⟨"f0", "https://a/", "R", []⟩,
          ⟨"f1", "https://a/frame", "F", [⟨"https://a/s.css", "SOVR"⟩]⟩]
        "c1" "https://a/s.css" "https://a/frame" = .unmatched := by
  decide

/-- The shared mutable state touched by the `unknown` route handler of one
`_renderSnapshot` invocation: the seen-set `unknownUrls`, the console log
lines, and the URLs whose routes were aborted (`route.abort()` promises
pushed onto `intercepted`). -/
structure ReplayLog where
  unknownUrls : List String
  logs : List String
  aborted : List String
deriving DecidableEq, Repr

/-- The `unknown` handler: log the URL only when unseen, record it in the
seen-set, and always abort the route. -/
def unknown (st : ReplayLog) (url : String) : ReplayLog :=
  let st1 :=
    if url ∈ st.unknownUrls then st
    else
      { st with
        logs := st.logs ++ ["Request to unknown url: " ++ url]
        unknownUrls := st.unknownUrls ++ [url] }
  { st1 with aborted := st1.aborted ++ [url] }

/-- C6: every unmatched request is aborted (never left pending), and two
unmatched requests to the same previously unseen URL produce exactly one
log line while both are still aborted. -/
theorem unmatched_dedup_and_abort :
    (∀ (st : ReplayLog) (url : String),
        (unknown st url).aborted = st.aborted ++ [url]) ∧
      (∀ (st : ReplayLog) (url : String), url ∉ st.unknownUrls →
        (unknown (unknown st url) url).logs =
            st.logs ++ ["Request to unknown url: " ++ url] ∧
          (unknown (unknown st url) url).aborted =
            st.aborted ++ [url, url]) := by
  constructor
  · intro st url
    by_cases h : url ∈ st.unknownUrls <;> simp [unknown, h]
  · intro st url h
    constructor
    · simp [unknown, h]
    · simp [unknown, h]

/-- Witness for C6: from a fresh replay, two requests to the same
never-recorded URL yield one log line and two aborts. -/
theorem unmatched_dedup_and_abort_witness :
    (unknown (⟨[], [], []⟩ : ReplayLog) "https://nope/x").aborted =
        [] ++ ["https://nope/x"] ∧
      (unknown (unknown (⟨[], [], []⟩ : ReplayLog) "https://nope/x")
          "https://nope/x").logs =
        [] ++ ["Request to unknown url: " ++ "https://nope/x"] ∧
      (unknown (unknown (⟨[], [], []⟩ : ReplayLog) "https://nope/x")
          "https://nope/x").aborted =
        [] ++ ["https://nope/x", "https://nope/x"] :=
  ⟨unmatched_dedup_and_abort.1 ⟨[], [], []⟩ "https://nope/x",
    (unmatched_dedup_and_abort.2 ⟨[], [], []⟩ "https://nope/x"
      (by decide)).1,
    (unmatched_dedup_and_abort.2 ⟨[], [], []⟩ "https://nope/x"
      (by decide)).2⟩

/-- JS `String.prototype.endsWith`, modelled on character lists. -/
def urlEndsWith (url suffixStr : String) : Bool :=
  List.isSuffixOf suffixStr.toList url.toList

/-- `_postprocessSnapshotFrame`'s inner loop for one live child frame: the
snapshot frames it recurses into, in document order. -/
def childRecursions (frames : List FrameSnapshot) (url : String) :
    List FrameSnapshot :=
  frames.foldl (fun acc childData =>
    if urlEndsWith url childData.url then acc ++ [childData] else acc) []

theorem childRecursions_foldl (url : String) :
    ∀ (frames : List FrameSnapshot) (acc : List FrameSnapshot),
      frames.foldl (fun a childData =>
          if urlEndsWith url childData.url then a ++ [childData] else a) acc =
        acc ++ frames.filter (fun f => urlEndsWith url f.url) := by
  intro frames
  induction frames with
  | nil => intro acc; simp
  | cons f rest ih =>
    intro acc
    by_cases h : urlEndsWith url f.url
    · simp [List.foldl, h, ih, List.filter_cons]
    · simp [List.foldl, h, ih, List.filter_cons]

/-- C9 (amended): for one live child frame, the recursion processes EVERY
`FrameSnapshot` whose recorded URL is a suffix of the live child's URL, in
document order — not only the first such frame. -/
theorem child_frame_suffix_recursion (frames : List FrameSnapshot)
    (url : String) :
    childRecursions frames url =
      frames.filter (fun f => urlEndsWith url f.url) := by
  rw [childRecursions, childRecursions_foldl]
  rfl

/-- Counterexample to C9 as stated: with two snapshot frames whose URLs
(`"a/b"` and `"b"`) are both suffixes of the live child URL `"a/b"`, the
loop recurses into both frames, not exactly one. -/
theorem child_frame_single_selection_counterexample :
    childRecursions [⟨"f1", "a/b", "H1", []⟩, ⟨"f2", "b", "H2", []⟩] "a/b" =
        [⟨"f1", "a/b", "H1", []⟩, ⟨"f2", "b", "H2", []⟩] ∧
      (childRecursions [⟨"f1", "a/b", "H1", []⟩, ⟨"f2", "b", "H2", []⟩]
          "a/b").length ≠ 1 := by
  decide
